import Mathlib

/-!
Verification of the forager session-index core: shallow embedding of the
discovery, indexing, document-building, search and resolution logic.

Modelling conventions used throughout:
* JavaScript numbers that hold millisecond timestamps from the prompt log are
  modelled as `Int` (the repository always produces integral timestamps);
  file-modification fingerprints (`mtimeMs`, a double) are modelled as `ℚ`.
* JavaScript string truthiness (`undefined`/`''` are falsy) is modelled with
  `Option String` plus the `jsOrS` helper; `x || y` on strings is `jsOrS`,
  and on numbers (where `0` is falsy) it is `jsOrQ`.
* The SQLite tables are modelled as in-memory lists: the `sessions` table is
  a `List SessionRow`, the single `last_search_results` meta row is an
  `Option (List String)` (its JSON string serialisation round-trips for lists
  of session-id strings, so it is modelled at the decoded type).
* IEEE doubles used by the cosine-similarity arithmetic are modelled as real
  numbers, the usual exact-arithmetic reading of the numeric spec.
* `Date.toISOString` rendering is not re-implemented; it enters the model as
  the explicit function argument `isoOf : Int → String` (none of the verified
  properties depend on the rendering itself).
* Fallible collaborator calls (file reads, the embedding capability) are
  modelled as `Except String`-valued operations supplied in `IndexOps`; a
  `.error` value models a thrown exception.
-/

/-- JS `a || b` for possibly-absent strings: falsy (`undefined` or `""`) falls
through to the default. -/
def jsOrS (o : Option String) (d : String) : String :=
  match o with
  | some s => if s = "" then d else s
  | none => d

/-- JS `a || b` for possibly-absent numbers: falsy (`undefined` or `0`) falls
through to the default. -/
def jsOrQ (o : Option ℚ) (d : ℚ) : ℚ :=
  match o with
  | some q => if q = 0 then d else q
  | none => d

/-- JS string truthiness of a possibly-absent string field. -/
def strTruthy (o : Option String) : Bool :=
  jsOrS o "" ≠ ""

/-- One base-36 digit character, lowercase, as produced by
`Number.prototype.toString(36)`. -/
def base36Digit (n : Nat) : Char :=
  if n < 10 then Char.ofNat (48 + n) else Char.ofNat (87 + n)

/-- Digit-accumulating worker for `natToBase36`; the first argument is
structural fuel (at least the digit count, so never exhausted when started
at `n`). -/
def natToBase36Go : Nat → Nat → List Char → List Char
  | 0, _, acc => acc
  | fuel + 1, n, acc =>
    if n = 0 then acc
    else natToBase36Go fuel (n / 36) (base36Digit (n % 36) :: acc)

/-- `n.toString(36)` for a non-negative integer, as in JS. -/
def natToBase36 (n : Nat) : String :=
  if n = 0 then "0" else String.mk (natToBase36Go n n [])

/-- Truncation of an integer to signed 32-bit two's complement, the effect of
JS `|0` and of the 32-bit shift in `simpleHash`. -/
def int32 (n : Int) : Int :=
  (n + 2 ^ 31) % 2 ^ 32 - 2 ^ 31

/-- `simpleHash` from the indexer: the classic `h*31 + c` string hash run in
32-bit arithmetic (`(hash << 5) - hash + charCode`, then `|0`), then
`Math.abs(hash).toString(36)`. Characters contribute their code points
(identical to JS UTF-16 units for the Basic Multilingual Plane). -/
def simpleHash (s : String) : String :=
  let h := s.data.foldl (fun h c => int32 (int32 (h * 32) - h + (c.toNat : Int))) 0
  natToBase36 h.natAbs

/-- `MAX_MESSAGE_LENGTH` from the indexer. -/
def MAX_MESSAGE_LENGTH : Nat := 300

/-- `MAX_USER_MESSAGES` from the indexer. -/
def MAX_USER_MESSAGES : Nat := 8

/-- `SESSION_GAP_MS` from the indexer: 30 minutes in milliseconds. -/
def SESSION_GAP_MS : Int := 30 * 60 * 1000

/-- The per-message truncation applied by `extractUserMessages` and
`buildHistoryDocument`: over 300 characters is cut and marked with `...`. -/
def truncateMessage (p : String) : String :=
  if p.length > MAX_MESSAGE_LENGTH then String.take p MAX_MESSAGE_LENGTH ++ "..." else p

/-- `projectDirToPath`: replace a leading `-` and then every `-` with `/`. -/
def projectDirToPath (d : String) : String :=
  let d1 := if String.startsWith d "-" then "/" ++ String.drop d 1 else d
  String.map (fun c => if c = '-' then '/' else c) d1

/-- `basename(path, '.jsonl')`: final path segment with the extension
stripped when present. -/
def basenameNoJsonlExt (p : String) : String :=
  let base := (p.splitOn "/").getLastD ""
  if String.endsWith base ".jsonl" then String.dropRight base 6 else base

/-- Model of `parseInt(s, 10)`: skip leading whitespace, optional sign, then
the maximal leading run of decimal digits; `none` models `NaN`. -/
def jsParseIntDec (s : String) : Option Int :=
  let t := s.data.dropWhile (fun c => c.isWhitespace)
  let signAndRest : Int × List Char :=
    match t with
    | '-' :: rest => (-1, rest)
    | '+' :: rest => (1, rest)
    | _ => (1, t)
  let digits := signAndRest.2.takeWhile (fun c => c.isDigit)
  if digits.isEmpty then none
  else some (signAndRest.1 * digits.foldl (fun n c => n * 10 + ((c.toNat : Int) - 48)) 0)

/-- One prompt-log record surviving the `obj.display && obj.timestamp`
truthiness filter of `scanHistoryFile` (parsed from one JSON line). -/
structure HistoryRecord where
  display : String
  timestamp : Int
  project : String
deriving Repr, DecidableEq

/-- The in-progress group built by the `scanHistoryFile` grouping loop. -/
structure HistGroup where
  project : String
  firstTs : Int
  lastTs : Int
  prompts : List String
deriving Repr, DecidableEq

/-- A candidate entry produced by discovery (the loosely-shaped JS object,
with `Option` marking fields a given provenance may not supply). -/
structure Entry where
  sessionId : String := ""
  source : String := ""
  fullPath : Option String := none
  projectDirName : Option String := none
  projectPath : Option String := none
  gitBranch : Option String := none
  summary : Option String := none
  firstPrompt : Option String := none
  created : Option String := none
  modified : Option String := none
  messageCount : Option ℚ := none
  fileMtime : Option ℚ := none
  prompts : Option (List String) := none
deriving Repr, DecidableEq

/-- A reference to one `.jsonl` transcript file found while scanning a
project directory. -/
structure JsonlFileRef where
  path : String
  projectDirName : String
deriving Repr, DecidableEq

/-- The metadata record accumulated by `extractMetadataFromJsonl`. -/
structure JsonlMeta where
  sessionId : Option String := none
  projectPath : Option String := none
  gitBranch : Option String := none
  firstPrompt : Option String := none
  created : Option String := none
  modified : Option String := none
  messageCount : ℚ := 0
deriving Repr, DecidableEq

/-- One parsed line of a transcript `.jsonl` file, reduced to the fields
`extractUserMessages` consults; `messageContent` is the already-stringified
`message.content` with `none` for an absent/falsy value. -/
structure TranscriptLine where
  type : String := ""
  messageContent : Option String := none
deriving Repr, DecidableEq

/-- One row of the `sessions` table. -/
structure SessionRow where
  session_id : String := ""
  project_path : String := ""
  git_branch : String := ""
  summary : String := ""
  first_prompt : String := ""
  document : String := ""
  embedding : Option (List ℝ) := none
  created : String := ""
  modified : String := ""
  message_count : ℚ := 0
  file_mtime : ℚ := 0
  indexed_at : String := ""

/-- A progress event delivered to `onProgress`. -/
structure Event where
  type : String := ""
  sessionId : Option String := none
  summary : Option String := none
  message : Option String := none
  current : Option Nat := none
  total : Option Nat := none

/-- The mutable state of one `indexSessions` run: the `sessions` table plus
the three counters and the stream of emitted events. -/
structure IndexState where
  store : List SessionRow := []
  indexed : Nat := 0
  skipped : Nat := 0
  errors : Nat := 0
  events : List Event := []

/-- The aggregate tally `indexSessions` returns. -/
structure IndexResult where
  totalEntries : Nat
  indexed : Nat
  skipped : Nat
  errors : Nat

/-- The external collaborators of the indexing pipeline, as fallible
operations: the embedding capability, the two transcript extraction passes,
`statSync(...).mtimeMs` (with `none` modelling a throw), the prompt-log file
mtime, the wall clock, and ISO date rendering. -/
structure IndexOps where
  embed : String → Except String (List ℝ)
  extractMeta : String → Except String (Option JsonlMeta)
  extractMsgs : String → Except String (List String)
  statMtime : String → Option ℚ
  historyMtime : Option ℚ
  now : String
  isoOf : Int → String

/-- `upsertSession`: `INSERT OR REPLACE` keyed on `session_id`. -/
def upsertSession (store : List SessionRow) (row : SessionRow) : List SessionRow :=
  store.filter (fun r => r.session_id ≠ row.session_id) ++ [row]

/-- `getSessionMtime`: the stored fingerprint of a session, or `none` when no
row exists. -/
def getSessionMtime (store : List SessionRow) (sessionId : String) : Option ℚ :=
  (store.find? (fun r => r.session_id = sessionId)).map (fun r => r.file_mtime)

/-- `startsWith` at the character level. -/
def strStartsWith (s pre : String) : Bool :=
  pre.data.isPrefixOf s.data

/-- `getSessionByPrefix`: first `sessions` row whose id starts with the given
token (the store's `LIKE tok ++ '%'` lookup read as a prefix match, the
interface the spec assigns to the storage collaborator). -/
def getSessionByIdStart (store : List SessionRow) (tok : String) : Option SessionRow :=
  store.find? (fun r => strStartsWith r.session_id tok)

/-- The fresh group opened by the `scanHistoryFile` grouping loop for a
record that does not join the current group (`e.project || ''` collapses to
`e.project` on strings). -/
def newGroup (e : HistoryRecord) : HistGroup :=
  { project := e.project, firstTs := e.timestamp, lastTs := e.timestamp,
    prompts := [e.display] }

/-- One iteration of the `scanHistoryFile` grouping loop over the state
(closed groups so far, currently open group). -/
def historyStep (acc : List HistGroup × Option HistGroup) (e : HistoryRecord) :
    List HistGroup × Option HistGroup :=
  match acc with
  | (ss, some cur) =>
    if e.project = cur.project ∧ e.timestamp - cur.lastTs < SESSION_GAP_MS then
      (ss, some { cur with prompts := cur.prompts ++ [e.display], lastTs := e.timestamp })
    else
      (ss ++ [cur], some (newGroup e))
  | (ss, none) => (ss, some (newGroup e))

/-- The grouping pass of `scanHistoryFile`: fold the timestamp-sorted records
and close the final group. -/
def groupHistory (es : List HistoryRecord) : List HistGroup :=
  let acc := es.foldl historyStep ([], none)
  acc.1 ++ acc.2.toList

/-- The deterministic synthetic id derived for a history group:
`history-{firstTs}-{simpleHash(project)}`. -/
def syntheticIdOf (firstTs : Int) (project : String) : String :=
  "history-" ++ toString firstTs ++ "-" ++ simpleHash project

/-- The `entries.sort((a, b) => a.timestamp - b.timestamp)` pass of
`scanHistoryFile` (JS sort is stable; so is `List.mergeSort`). -/
def sortByTimestamp (rs : List HistoryRecord) : List HistoryRecord :=
  rs.mergeSort (fun a b => decide (a.timestamp ≤ b.timestamp))

/-- The conversion pass of `scanHistoryFile`: one history-provenance
candidate entry per group, dropped when its synthetic id is already claimed
by `seen`. `isoOf` stands for `Date.toISOString` rendering. -/
def historyEntriesFor (isoOf : Int → String) (seen : List String)
    (sessions : List HistGroup) : List Entry :=
  sessions.filterMap (fun s =>
    let sid := syntheticIdOf s.firstTs s.project
    if seen.contains sid then none
    else some
      { sessionId := sid,
        projectPath := some s.project,
        gitBranch := some "",
        firstPrompt := some (s.prompts.headD ""),
        summary := some "",
        created := some (isoOf s.firstTs),
        modified := some (isoOf s.lastTs),
        messageCount := some (s.prompts.length : ℚ),
        prompts := some s.prompts,
        source := "history" })

/-- `scanHistoryFile`: truthiness-filter the parsed prompt-log records, sort
them by timestamp, group them into sessions, and convert the groups to
candidate entries. -/
def scanHistoryFile (isoOf : Int → String) (seen : List String)
    (records : List HistoryRecord) : List Entry :=
  historyEntriesFor isoOf seen
    (groupHistory (sortByTimestamp
      (records.filter (fun r => r.display ≠ "" ∧ r.timestamp ≠ 0))))

/-- JS `Map.prototype.set` on an insertion-ordered association list: an
existing key keeps its position and gets the new value, a new key is
appended. -/
def mapSet (m : List (String × Entry)) (k : String) (v : Entry) :
    List (String × Entry) :=
  if m.any (fun p => p.1 = k) then
    m.map (fun p => if p.1 = k then (k, v) else p)
  else
    m ++ [(k, v)]

/-- The orphan candidate entry built for a transcript file not claimed by any
session index. -/
def orphanEntry (fileName path dirName : String) : Entry :=
  { sessionId := fileName, fullPath := some path,
    projectDirName := some dirName, source := "orphan" }

/-- `scanAllSessions`: merge the three discovery sources into one candidate
list. `indexData` is the concatenation of the parsed per-project
`sessions-index.json` entry lists in scan order, `jsonlFiles` the transcript
files found, `hist` the parsed prompt-log records. Index entries are
deduplicated through a JS `Map`, then orphan transcripts not claimed by an
index are appended, then history groups whose synthetic id is still
unclaimed. -/
def scanAllSessions (isoOf : Int → String) (indexData : List Entry)
    (jsonlFiles : List JsonlFileRef) (hist : List HistoryRecord) : List Entry :=
  let indexed := indexData.foldl (fun m e => mapSet m e.sessionId e) []
  let entries0 := indexed.map (fun p => { p.2 with source := "index" })
  let seen0 := indexed.map (fun p => p.1)
  let orphanAcc := jsonlFiles.foldl
    (fun (acc : List Entry × List String) f =>
      let fileName := basenameNoJsonlExt f.path
      if acc.2.contains fileName then acc
      else (acc.1 ++ [orphanEntry fileName f.path f.projectDirName],
            acc.2 ++ [fileName]))
    ([], seen0)
  entries0 ++ orphanAcc.1 ++ scanHistoryFile isoOf orphanAcc.2 hist

/-- `extractUserMessages`, applied to the parsed lines of a transcript: keep
each user message's stringified content, truncated, stopping once
`MAX_USER_MESSAGES` have been collected (`acc` is the accumulator of the
loop). -/
def extractUserMessagesFrom : List TranscriptLine → List String → List String
  | [], acc => acc
  | l :: ls, acc =>
    if l.type = "user" ∧ strTruthy l.messageContent then
      let acc2 := acc ++ [truncateMessage (jsOrS l.messageContent "")]
      if MAX_USER_MESSAGES ≤ acc2.length then acc2
      else extractUserMessagesFrom ls acc2
    else extractUserMessagesFrom ls acc

/-- `buildDocument`: newline-joined parts, each pushed only when its field is
truthy, in the fixed order project / branch / summary / first prompt / key
messages. -/
def buildDocument (e : Entry) (userMessages : List String) : String :=
  let parts : List String := []
  let parts := if strTruthy e.projectPath then
    parts ++ ["Project: " ++ jsOrS e.projectPath ""] else parts
  let parts := if strTruthy e.gitBranch then
    parts ++ ["Branch: " ++ jsOrS e.gitBranch ""] else parts
  let parts := if strTruthy e.summary then
    parts ++ ["Summary: " ++ jsOrS e.summary ""] else parts
  let parts := if strTruthy e.firstPrompt then
    parts ++ ["First prompt: " ++ jsOrS e.firstPrompt ""] else parts
  let parts := if 0 < userMessages.length then
    parts ++ ["Key messages: " ++ String.intercalate " | " userMessages] else parts
  String.intercalate "\n" parts

/-- `buildHistoryDocument`: newline-joined parts for a history-provenance
entry — project, first prompt, then every grouped prompt truncated and
pipe-joined. -/
def buildHistoryDocument (e : Entry) : String :=
  let parts : List String := []
  let parts := if strTruthy e.projectPath then
    parts ++ ["Project: " ++ jsOrS e.projectPath ""] else parts
  let parts := if strTruthy e.firstPrompt then
    parts ++ ["First prompt: " ++ jsOrS e.firstPrompt ""] else parts
  let ps := e.prompts.getD []
  let parts := if 0 < ps.length then
    parts ++ ["Prompts: " ++ String.intercalate " | " (ps.map truncateMessage)] else parts
  String.intercalate "\n" parts

/-- Modelled from the spec: the history document as the specification words
it, with the representative-message cap (`MAX_USER_MESSAGES`) applied to the
grouped prompts as well; stated only to compare against the source's
`buildHistoryDocument`, which has no such cap. -/
def buildHistoryDocumentCapped (e : Entry) : String :=
  let parts : List String := []
  let parts := if strTruthy e.projectPath then
    parts ++ ["Project: " ++ jsOrS e.projectPath ""] else parts
  let parts := if strTruthy e.firstPrompt then
    parts ++ ["First prompt: " ++ jsOrS e.firstPrompt ""] else parts
  let ps := (e.prompts.getD []).take MAX_USER_MESSAGES
  let parts := if 0 < ps.length then
    parts ++ ["Prompts: " ++ String.intercalate " | " (ps.map truncateMessage)] else parts
  String.intercalate "\n" parts

/-- The change-detection fingerprint computed at the top of each loop
iteration of `indexSessions`: the prompt-log mtime for history entries
(`0` when the stat throws), otherwise the entry's own `fileMtime` falling
back (through JS `||`) to a fresh stat of the transcript (`0` on a throw,
including the throw on a missing `fullPath`). -/
def fingerprintOf (ops : IndexOps) (entry : Entry) : ℚ :=
  if entry.source = "history" then
    ops.historyMtime.getD 0
  else
    jsOrQ entry.fileMtime
      (match entry.fullPath with
       | some p => (ops.statMtime p).getD 0
       | none => 0)

/-- The enriched entry `indexSessions` builds for an orphan from the
metadata extracted out of its transcript. -/
def enrichEntry (entry : Entry) (m : JsonlMeta) : Entry :=
  { entry with
    sessionId := jsOrS m.sessionId entry.sessionId,
    projectPath := some (jsOrS m.projectPath (projectDirToPath (entry.projectDirName.getD ""))),
    gitBranch := some (jsOrS m.gitBranch ""),
    firstPrompt := m.firstPrompt,
    summary := some "",
    created := some (jsOrS m.created ""),
    modified := some (jsOrS m.modified ""),
    messageCount := some (jsOrQ (some m.messageCount) 0) }

/-- The outcome of the document-building phase of one loop iteration:
either the empty-session skip or an enriched entry with its document. -/
inductive BuildOutcome where
  | empty
  | doc (enriched : Entry) (document : String)

/-- The document-building phase of one `indexSessions` iteration: history
entries use `buildHistoryDocument`; orphans are first enriched via
`extractMetadataFromJsonl` (with the empty-session skip when no first prompt
is recoverable); index and orphan entries then get their user messages
extracted and composed by `buildDocument`. -/
def buildFor (ops : IndexOps) (entry : Entry) : Except String BuildOutcome :=
  if entry.source = "history" then
    .ok (.doc entry (buildHistoryDocument entry))
  else if entry.source = "orphan" then
    match ops.extractMeta (entry.fullPath.getD "") with
    | .error msg => .error msg
    | .ok none => .ok .empty
    | .ok (some m) =>
      if strTruthy m.firstPrompt = false then .ok .empty
      else
        match ops.extractMsgs ((enrichEntry entry m).fullPath.getD "") with
        | .error msg => .error msg
        | .ok msgs =>
          .ok (.doc (enrichEntry entry m) (buildDocument (enrichEntry entry m) msgs))
  else
    match ops.extractMsgs (entry.fullPath.getD "") with
    | .error msg => .error msg
    | .ok msgs => .ok (.doc entry (buildDocument entry msgs))

/-- The state update shared by the two skip paths: bump the skipped counter
and emit a `skip` event. -/
def skipState (st : IndexState) (sessionId : String) (summary : Option String) :
    IndexState :=
  { st with skipped := st.skipped + 1,
            events := st.events ++ [{ type := "skip", sessionId := some sessionId,
                                      summary := summary }] }

/-- The state update of a successful iteration: upsert the full session row,
bump the indexed counter and emit an `indexed` event carrying the label
`summary || (firstPrompt || 'untitled').slice(0, 60)`. -/
def indexedState (ops : IndexOps) (tot : Nat) (st : IndexState) (enriched : Entry)
    (document : String) (emb : List ℝ) (fileMtime : ℚ) : IndexState :=
  let row : SessionRow :=
    { session_id := enriched.sessionId,
      project_path := jsOrS enriched.projectPath "",
      git_branch := jsOrS enriched.gitBranch "",
      summary := jsOrS enriched.summary "",
      first_prompt := jsOrS enriched.firstPrompt "",
      document := document,
      embedding := some emb,
      created := jsOrS enriched.created "",
      modified := jsOrS enriched.modified "",
      message_count := jsOrQ enriched.messageCount 0,
      file_mtime := fileMtime,
      indexed_at := ops.now }
  let label := jsOrS enriched.summary (String.take (jsOrS enriched.firstPrompt "untitled") 60)
  { st with store := upsertSession st.store row,
            indexed := st.indexed + 1,
            events := st.events ++ [{ type := "indexed",
                                      sessionId := some enriched.sessionId,
                                      summary := some label,
                                      current := some (st.indexed + 1 + st.skipped),
                                      total := some tot }] }

/-- The `try` block of one `indexSessions` loop iteration: fingerprint,
incremental skip check, document build, embed, persist. A `.error` result
models an exception escaping the block. -/
def tryBody (ops : IndexOps) (full : Bool) (tot : Nat) (st : IndexState)
    (entry : Entry) : Except String IndexState :=
  let fileMtime := fingerprintOf ops entry
  if full = false ∧ getSessionMtime st.store entry.sessionId = some fileMtime then
    .ok (skipState st entry.sessionId entry.summary)
  else
    match buildFor ops entry with
    | .error msg => .error msg
    | .ok .empty => .ok (skipState st entry.sessionId (some "(empty session)"))
    | .ok (.doc enriched document) =>
      match ops.embed document with
      | .error msg => .error msg
      | .ok emb => .ok (indexedState ops tot st enriched document emb fileMtime)

/-- One full `indexSessions` loop iteration including the `catch`: an
exception increments the error counter and emits an `error` event, and the
loop moves on. -/
def processEntry (ops : IndexOps) (full : Bool) (tot : Nat) (st : IndexState)
    (entry : Entry) : IndexState :=
  match tryBody ops full tot st entry with
  | .ok st2 => st2
  | .error msg =>
    { st with errors := st.errors + 1,
              events := st.events ++
                [{ type := "error",
                   message := some ("Failed to index " ++ entry.sessionId ++ ": " ++ msg) }] }

/-- `indexSessions`: discover the candidate entries, emit `start`, fold the
per-entry processing over them, and return the aggregate tally together with
the final state. -/
def indexSessions (ops : IndexOps) (full : Bool) (indexData : List Entry)
    (jsonlFiles : List JsonlFileRef) (hist : List HistoryRecord)
    (store0 : List SessionRow) : IndexResult × IndexState :=
  let allEntries := scanAllSessions ops.isoOf indexData jsonlFiles hist
  let tot := allEntries.length
  let st0 : IndexState :=
    { store := store0, events := [{ type := "start", total := some tot }] }
  let fin := allEntries.foldl (processEntry ops full tot) st0
  ({ totalEntries := tot, indexed := fin.indexed, skipped := fin.skipped,
     errors := fin.errors }, fin)

/-- A session row paired with its similarity score. -/
structure ScoredSession where
  session : SessionRow
  score : ℝ

/-- The state the search component touches: the `sessions` table and the
`last_search_results` meta value. -/
structure SearchState where
  sessions : List SessionRow
  lastSearchResults : Option (List String)

/-- `cosineSimilarity`: dot product and the two squared norms accumulated
over the first `min` length entries, then `dot / (√normA * √normB)` with the
zero-denominator guard. `dotMin`, `normAOf` and `normBOf` name the three
loop accumulators. -/
noncomputable def dotMin (a b : List ℝ) : ℝ :=
  ∑ i ∈ Finset.range (min a.length b.length), a.getD i 0 * b.getD i 0

/-- The `normA` accumulator of `cosineSimilarity`. -/
noncomputable def normAOf (a b : List ℝ) : ℝ :=
  ∑ i ∈ Finset.range (min a.length b.length), a.getD i 0 * a.getD i 0

/-- The `normB` accumulator of `cosineSimilarity`. -/
noncomputable def normBOf (a b : List ℝ) : ℝ :=
  ∑ i ∈ Finset.range (min a.length b.length), b.getD i 0 * b.getD i 0

/-- `cosineSimilarity` itself. -/
noncomputable def cosineSimilarity (a b : List ℝ) : ℝ :=
  let denom := Real.sqrt (normAOf a b) * Real.sqrt (normBOf a b)
  if denom = 0 then 0 else dotMin a b / denom

/-- `searchSessions`: embed the query, score every stored session with a
non-null embedding, sort descending by score (JS stable sort with comparator
`b.score - a.score`), truncate to `limit`, persist the returned ids as the
new `last_search_results` handle, and return the scored list. The stored
BLOB-to-vector decoding is the identity at this model's typed embeddings. -/
noncomputable def searchSessions (embedFn : String → List ℝ) (st : SearchState)
    (query : String) (limit : Nat) : List ScoredSession × SearchState :=
  let queryEmbedding := embedFn query
  let scored := (st.sessions.filter (fun s => s.embedding.isSome)).map
    (fun s => ScoredSession.mk s (cosineSimilarity queryEmbedding (s.embedding.getD [])))
  let sorted := scored.mergeSort (fun a b => decide (b.score ≤ a.score))
  let top := sorted.take limit
  let resultIds := top.map (fun s => s.session.session_id)
  (top, { st with lastSearchResults := some resultIds })

/-- `searchSessions` with the default `limit = 5`. -/
noncomputable def searchSessionsDefault (embedFn : String → List ℝ)
    (st : SearchState) (query : String) : List ScoredSession × SearchState :=
  searchSessions embedFn st query 5

/-- `resolveSessionId`: a token that parses as an integer, lies in `1..20`
and round-trips through `String` is a 1-based ordinal into the
`last_search_results` handle (resolving to `null` when the handle is absent
or shorter, without any prefix fallthrough); any other token is looked up as
a session-id prefix in the store. -/
def resolveSessionId (store : List SessionRow) (handle : Option (List String))
    (idOrIndex : String) : Option String :=
  match jsParseIntDec idOrIndex with
  | some num =>
    if 1 ≤ num ∧ num ≤ 20 ∧ idOrIndex = toString num then
      match handle with
      | some ids => if num.toNat ≤ ids.length then ids.get? (num.toNat - 1) else none
      | none => none
    else
      (getSessionByIdStart store idOrIndex).map (fun s => s.session_id)
  | none =>
    (getSessionByIdStart store idOrIndex).map (fun s => s.session_id)

/-- C2: history grouping puts a record into the current group exactly when
the group's previous record has the same project and the new timestamp is
within the 30-minute gap of the previous one; concretely, same-project
records 29 minutes apart form one group, 31 minutes apart form two, and a
project change always starts a new group regardless of the time gap. -/
theorem historyGrouping_C2 :
    (∀ (ss : List HistGroup) (cur : HistGroup) (e : HistoryRecord),
      (∃ cur2, historyStep (ss, some cur) e = (ss, some cur2) ∧
        cur2.prompts = cur.prompts ++ [e.display]) ↔
      (e.project = cur.project ∧ e.timestamp - cur.lastTs < SESSION_GAP_MS)) ∧
    (∀ (p d1 d2 : String) (t : Int),
      groupHistory [⟨d1, t, p⟩, ⟨d2, t + 29 * 60000, p⟩] =
        [⟨p, t, t + 29 * 60000, [d1, d2]⟩]) ∧
    (∀ (p d1 d2 : String) (t : Int),
      groupHistory [⟨d1, t, p⟩, ⟨d2, t + 31 * 60000, p⟩] =
        [⟨p, t, t, [d1]⟩, ⟨p, t + 31 * 60000, t + 31 * 60000, [d2]⟩]) ∧
    (∀ e1 e2 : HistoryRecord, e1.project ≠ e2.project →
      (groupHistory [e1, e2]).length = 2) := by
  refine ⟨?_, ?_, ?_, ?_⟩
  · intro ss cur e
    constructor
    · rintro ⟨cur2, heq, -⟩
      by_cases hc : e.project = cur.project ∧ e.timestamp - cur.lastTs < SESSION_GAP_MS
      · exact hc
      · exfalso
        simp only [historyStep, if_neg hc] at heq
        have := congrArg (fun q => (Prod.fst q).length) heq
        simp at this
    · intro hc
      exact ⟨{ cur with prompts := cur.prompts ++ [e.display], lastTs := e.timestamp },
        by simp only [historyStep, if_pos hc], rfl⟩
  · intro p d1 d2 t
    have hc : (⟨d2, t + 29 * 60000, p⟩ : HistoryRecord).project =
        (newGroup ⟨d1, t, p⟩).project ∧
        (⟨d2, t + 29 * 60000, p⟩ : HistoryRecord).timestamp -
          (newGroup ⟨d1, t, p⟩).lastTs < SESSION_GAP_MS := by
      refine ⟨rfl, ?_⟩
      simp [newGroup, SESSION_GAP_MS]
    simp only [groupHistory, List.foldl, historyStep, if_pos hc]
    rfl
  · intro p d1 d2 t
    have hc : ¬ ((⟨d2, t + 31 * 60000, p⟩ : HistoryRecord).project =
        (newGroup ⟨d1, t, p⟩).project ∧
        (⟨d2, t + 31 * 60000, p⟩ : HistoryRecord).timestamp -
          (newGroup ⟨d1, t, p⟩).lastTs < SESSION_GAP_MS) := by
      rintro ⟨-, h⟩
      simp [newGroup, SESSION_GAP_MS] at h
    simp only [groupHistory, List.foldl, historyStep, if_neg hc]
    rfl
  · intro e1 e2 hne
    have hc : ¬ (e2.project = (newGroup e1).project ∧
        e2.timestamp - (newGroup e1).lastTs < SESSION_GAP_MS) := by
      rintro ⟨h, -⟩
      exact hne h.symm
    simp only [groupHistory, List.foldl, historyStep, if_neg hc]
    rfl

/-- Witness for C2: the different-project split applied to two concrete
records sharing a timestamp. -/
theorem historyGrouping_C2_witness :
    ((⟨"a", 0, "p"⟩ : HistoryRecord).project ≠ (⟨"b", 0, "q"⟩ : HistoryRecord).project) ∧
    (groupHistory [⟨"a", 0, "p"⟩, ⟨"b", 0, "q"⟩]).length = 2 :=
  ⟨by decide, historyGrouping_C2.2.2.2 ⟨"a", 0, "p"⟩ ⟨"b", 0, "q"⟩ (by decide)⟩

/-- C9: the synthetic history-session id is a deterministic function of the
group's first timestamp and project path alone, and re-upserting a row with
an identical session id replaces the previous row instead of duplicating
it, so repeated scans of an unchanged prompt log do not duplicate. -/
theorem syntheticId_C9 :
    (∀ g1 g2 : HistGroup, g1.firstTs = g2.firstTs → g1.project = g2.project →
      syntheticIdOf g1.firstTs g1.project = syntheticIdOf g2.firstTs g2.project) ∧
    (∀ (store : List SessionRow) (r1 r2 : SessionRow), r1.session_id = r2.session_id →
      upsertSession (upsertSession store r1) r2 = upsertSession store r2) := by
  constructor
  · intro g1 g2 h1 h2
    rw [h1, h2]
  · intro store r1 r2 h
    unfold upsertSession
    rw [List.filter_append]
    have hpred : (fun r : SessionRow => decide (r.session_id ≠ r1.session_id)) =
        (fun r : SessionRow => decide (r.session_id ≠ r2.session_id)) := by
      funext r
      rw [h]
    have h1 : List.filter (fun r : SessionRow => decide (r.session_id ≠ r2.session_id)) [r1] = [] := by
      simp [List.filter, h]
    rw [h1, List.append_nil]
    congr 1
    rw [← hpred, List.filter_filter]
    simp only [Bool.and_self]

/-- Witness for C9 at concrete inputs: two groups agreeing on first
timestamp and project give the same id, and a repeated upsert of the id
`s` leaves a single row. -/
theorem syntheticId_C9_witness :
    syntheticIdOf 5 "p" = syntheticIdOf 5 "p" ∧
    upsertSession (upsertSession [] { session_id := "s", document := "d1" })
        { session_id := "s", document := "d2" } =
      upsertSession [] { session_id := "s", document := "d2" } :=
  ⟨syntheticId_C9.1 ⟨"p", 5, 6, ["a"]⟩ ⟨"p", 5, 9, ["b"]⟩ rfl rfl,
   syntheticId_C9.2 [] { session_id := "s", document := "d1" }
     { session_id := "s", document := "d2" } rfl⟩

/-- C3 is refuted on the code: discovery can emit the same session id twice.
With an empty index and no transcript files, the three prompt-log records
`x@1000/A`, `y@1000/B`, `z@1000/A` form three history groups, and the first
and third share first-timestamp `1000` and project `A`, hence the same
synthetic id — `scanHistoryFile` checks candidate ids against the ids
claimed by the other sources but never registers its own, so the candidate
list repeats `history-1000-1t`. -/
theorem scanAllSessions_C3_dup :
    ∀ isoOf : Int → String,
      ¬ ((scanAllSessions isoOf [] []
          [⟨"x", 1000, "A"⟩, ⟨"y", 1000, "B"⟩, ⟨"z", 1000, "A"⟩]).map
            (fun e => e.sessionId)).Nodup := by
  intro isoOf
  have hsort : sortByTimestamp [⟨"x", 1000, "A"⟩, ⟨"y", 1000, "B"⟩, ⟨"z", 1000, "A"⟩] =
      [⟨"x", 1000, "A"⟩, ⟨"y", 1000, "B"⟩, ⟨"z", 1000, "A"⟩] :=
    List.mergeSort_of_sorted (by decide)
  have h1 : (scanAllSessions isoOf [] []
        [⟨"x", 1000, "A"⟩, ⟨"y", 1000, "B"⟩, ⟨"z", 1000, "A"⟩]).map (fun e => e.sessionId) =
      (historyEntriesFor isoOf []
        (groupHistory (sortByTimestamp
          [⟨"x", 1000, "A"⟩, ⟨"y", 1000, "B"⟩, ⟨"z", 1000, "A"⟩]))).map
        (fun e => e.sessionId) := rfl
  rw [h1, hsort]
  have h2 : (historyEntriesFor isoOf []
        (groupHistory [⟨"x", 1000, "A"⟩, ⟨"y", 1000, "B"⟩, ⟨"z", 1000, "A"⟩])).map
        (fun e => e.sessionId) =
      ["history-1000-1t", "history-1000-1u", "history-1000-1t"] := rfl
  rw [h2]
  decide

lemma extractUserMessagesFrom_eq (lines : List TranscriptLine) :
    ∀ acc : List String, acc.length < MAX_USER_MESSAGES →
      extractUserMessagesFrom lines acc =
        acc ++ ((lines.filter (fun l => l.type = "user" ∧ strTruthy l.messageContent)).map
          (fun l => truncateMessage (jsOrS l.messageContent ""))).take
            (MAX_USER_MESSAGES - acc.length) := by
  induction lines with
  | nil => intro acc _; simp [extractUserMessagesFrom]
  | cons l ls ih =>
    intro acc hacc
    by_cases hl : l.type = "user" ∧ strTruthy l.messageContent
    · rw [extractUserMessagesFrom, if_pos hl]
      by_cases hfull : MAX_USER_MESSAGES ≤ (acc ++ [truncateMessage (jsOrS l.messageContent "")]).length
      · rw [if_pos hfull]
        have h7 : acc.length + 1 = MAX_USER_MESSAGES := by
          simp at hfull
          omega
        simp [List.filter_cons, hl, List.take_succ_cons]
        have : MAX_USER_MESSAGES - acc.length = 1 := by omega
        rw [this]
        simp
      · rw [if_neg hfull]
        have hlt : (acc ++ [truncateMessage (jsOrS l.messageContent "")]).length <
            MAX_USER_MESSAGES := by
          simp at hfull ⊢
          omega
        rw [ih _ hlt]
        simp [List.filter_cons, hl]
        have : MAX_USER_MESSAGES - acc.length =
            (MAX_USER_MESSAGES - (acc.length + 1)) + 1 := by omega
        rw [this, List.take_succ_cons]
    · rw [extractUserMessagesFrom, if_neg hl, ih _ hacc]
      simp [List.filter_cons, hl]

/-- C8 (amended): the document builder is deterministic and concatenates,
newline-joined and with each field only when non-empty, project path,
branch, summary, first-prompt excerpt and the pipe-joined representative
user messages; `extractUserMessages` supplies at most `MAX_USER_MESSAGES`
messages, each truncated to `MAX_MESSAGE_LENGTH` characters with an
ellipsis marker when cut; history documents omit summary/branch and
pipe-join ALL grouped prompts (no representative-message cap), each
truncated the same way. -/
theorem documentBuilder_C8_amended :
    (∀ lines : List TranscriptLine,
      extractUserMessagesFrom lines [] =
        ((lines.filter (fun l => l.type = "user" ∧ strTruthy l.messageContent)).map
          (fun l => truncateMessage (jsOrS l.messageContent ""))).take MAX_USER_MESSAGES) ∧
    (∀ p : String, p.length ≤ MAX_MESSAGE_LENGTH → truncateMessage p = p) ∧
    (∀ p : String, MAX_MESSAGE_LENGTH < p.length →
      truncateMessage p = String.take p MAX_MESSAGE_LENGTH ++ "...") ∧
    (∀ (e : Entry) (msgs : List String),
      buildDocument e msgs = String.intercalate "\n"
        ((if strTruthy e.projectPath then ["Project: " ++ jsOrS e.projectPath ""] else []) ++
         (if strTruthy e.gitBranch then ["Branch: " ++ jsOrS e.gitBranch ""] else []) ++
         (if strTruthy e.summary then ["Summary: " ++ jsOrS e.summary ""] else []) ++
         (if strTruthy e.firstPrompt then ["First prompt: " ++ jsOrS e.firstPrompt ""] else []) ++
         (if 0 < msgs.length then ["Key messages: " ++ String.intercalate " | " msgs] else []))) ∧
    (∀ e : Entry,
      buildHistoryDocument e = String.intercalate "\n"
        ((if strTruthy e.projectPath then ["Project: " ++ jsOrS e.projectPath ""] else []) ++
         (if strTruthy e.firstPrompt then ["First prompt: " ++ jsOrS e.firstPrompt ""] else []) ++
         (if 0 < (e.prompts.getD []).length then
            ["Prompts: " ++ String.intercalate " | " ((e.prompts.getD []).map truncateMessage)]
          else []))) ∧
    (∀ (e : Entry) (b s : Option String),
      buildHistoryDocument { e with gitBranch := b, summary := s } =
        buildHistoryDocument e) := by
  refine ⟨?_, ?_, ?_, ?_, ?_, ?_⟩
  · intro lines
    rw [extractUserMessagesFrom_eq lines [] (by simp [MAX_USER_MESSAGES])]
    simp
  · intro p hp
    unfold truncateMessage
    rw [if_neg (by omega)]
  · intro p hp
    unfold truncateMessage
    rw [if_pos (by omega)]
  · intro e msgs
    unfold buildDocument
    split_ifs <;> simp
  · intro e
    unfold buildHistoryDocument
    split_ifs <;> simp_all
  · intro e b s
    rfl

/-- Counterexample to C8 as stated: a history entry with nine grouped
prompts produces a document with all nine, not a list capped at the
`MAX_USER_MESSAGES` maximum the claim asserts (the capped variant written
from the spec's words differs). -/
theorem documentBuilder_C8_cex :
    buildHistoryDocument { source := "history", prompts := some (List.replicate 9 "a") } ≠
      buildHistoryDocumentCapped { source := "history", prompts := some (List.replicate 9 "a") } := by
  decide

set_option maxRecDepth 4096 in
/-- Witness for C8 (amended) at concrete strings: a short message passes
through unchanged, a 301-character message is cut and marked. -/
theorem documentBuilder_C8_witness :
    (("ab" : String).length ≤ MAX_MESSAGE_LENGTH ∧ truncateMessage "ab" = "ab") ∧
    (MAX_MESSAGE_LENGTH < (String.mk (List.replicate 301 'a')).length ∧
      truncateMessage (String.mk (List.replicate 301 'a')) =
        String.take (String.mk (List.replicate 301 'a')) MAX_MESSAGE_LENGTH ++ "...") :=
  ⟨⟨by decide, documentBuilder_C8_amended.2.1 "ab" (by decide)⟩,
   ⟨by decide,
    documentBuilder_C8_amended.2.2.1 (String.mk (List.replicate 301 'a'))
      (by decide)⟩⟩

lemma jsParse_roundtrip :
    ∀ n : ℕ, n < 21 → 1 ≤ n → jsParseIntDec (toString (n : ℤ)) = some (n : ℤ) := by
  decide

/-- C7: a token that is one of the canonical decimal strings `"1" .. "20"`
resolves as a 1-based ordinal into the last-search-results handle — the Nth
stored id, or `none` when the handle is absent or shorter — with no
fallthrough to the prefix lookup; any other token resolves to the id of the
first store row whose id starts with it, `none` when no row matches; in
every case a value is returned (the model is a total function). -/
theorem resolveSessionId_C7 (store : List SessionRow) (handle : Option (List String))
    (tok : String) :
    (∀ n : ℕ, n < 21 → 1 ≤ n → tok = toString (n : ℤ) →
      resolveSessionId store handle tok =
        match handle with
        | some ids => if n ≤ ids.length then ids.get? (n - 1) else none
        | none => none) ∧
    ((∀ n : ℕ, n < 21 → 1 ≤ n → tok ≠ toString (n : ℤ)) →
      resolveSessionId store handle tok =
        (getSessionByIdStart store tok).map (fun s => s.session_id)) := by
  constructor
  · intro n hn h1 htok
    subst htok
    unfold resolveSessionId
    rw [jsParse_roundtrip n hn h1]
    dsimp only
    have hg : 1 ≤ (n : ℤ) ∧ (n : ℤ) ≤ 20 ∧
        toString (n : ℤ) = toString ((n : ℤ)) := by
      refine ⟨by exact_mod_cast h1, by exact_mod_cast Nat.lt_succ_iff.mp hn, rfl⟩
    rw [if_pos hg]
    cases handle with
    | none => rfl
    | some ids => simp [Int.toNat_natCast]
  · intro hne
    cases hp : jsParseIntDec tok with
    | none =>
      unfold resolveSessionId
      rw [hp]
    | some num =>
      unfold resolveSessionId
      rw [hp]
      dsimp only
      have hg : ¬ (1 ≤ num ∧ num ≤ 20 ∧ tok = toString num) := by
        rintro ⟨ha, hb, hc⟩
        have hnum : ((num.toNat : ℤ)) = num := Int.toNat_of_nonneg (by omega)
        refine hne num.toNat ?_ ?_ ?_
        · omega
        · omega
        · rw [hnum]
          exact hc
      rw [if_neg hg]

/-- Witness for C7 at concrete inputs: ordinal hit, absent handle, unmatched
token, and a token that parses numerically but fails round-trip and falls to
the prefix lookup. -/
theorem resolveSessionId_C7_witness :
    resolveSessionId [{ session_id := "2abc" }] (some ["i1", "i2", "i3"]) "2" = some "i2" ∧
    resolveSessionId [{ session_id := "2abc" }] none "2" = none ∧
    resolveSessionId [{ session_id := "2abc" }] (some ["i1"]) "zz" = none ∧
    resolveSessionId [{ session_id := "2abc" }] (some ["i1"]) "2a" = some "2abc" := by
  refine ⟨?_, ?_, ?_, ?_⟩
  · have h := (resolveSessionId_C7 [{ session_id := "2abc" }] (some ["i1", "i2", "i3"]) "2").1 2
      (by decide) (by decide) (by decide)
    exact h.trans (by decide)
  · have h := (resolveSessionId_C7 [{ session_id := "2abc" }] none "2").1 2
      (by decide) (by decide) (by decide)
    exact h.trans (by decide)
  · have h := (resolveSessionId_C7 [{ session_id := "2abc" }] (some ["i1"]) "zz").2 (by decide)
    exact h.trans (by decide)
  · have h := (resolveSessionId_C7 [{ session_id := "2abc" }] (some ["i1"]) "2a").2 (by decide)
    exact h.trans (by decide)

lemma fingerprintOf_congr (ops1 ops2 : IndexOps) (entry : Entry)
    (hstat : ops1.statMtime = ops2.statMtime)
    (hhist : ops1.historyMtime = ops2.historyMtime) :
    fingerprintOf ops1 entry = fingerprintOf ops2 entry := by
  unfold fingerprintOf
  rw [hstat, hhist]

lemma tryBody_ok_count (ops : IndexOps) (full : Bool) (tot : Nat) (st : IndexState)
    (entry : Entry) (st2 : IndexState) (h : tryBody ops full tot st entry = .ok st2) :
    st2.indexed + st2.skipped + st2.errors = st.indexed + st.skipped + st.errors + 1 := by
  unfold tryBody at h
  by_cases hskip : full = false ∧
      getSessionMtime st.store entry.sessionId = some (fingerprintOf ops entry)
  · rw [if_pos hskip] at h
    cases h
    simp [skipState]
    omega
  · rw [if_neg hskip] at h
    cases hb : buildFor ops entry with
    | error msg => rw [hb] at h; cases h
    | ok outcome =>
      rw [hb] at h
      cases outcome with
      | empty =>
        cases h
        simp [skipState]
        omega
      | doc enriched document =>
        dsimp only at h
        cases he : ops.embed document with
        | error msg => rw [he] at h; cases h
        | ok emb =>
          rw [he] at h
          cases h
          simp [indexedState]
          omega

lemma processEntry_count (ops : IndexOps) (full : Bool) (tot : Nat) (st : IndexState)
    (entry : Entry) :
    (processEntry ops full tot st entry).indexed +
      (processEntry ops full tot st entry).skipped +
      (processEntry ops full tot st entry).errors =
    st.indexed + st.skipped + st.errors + 1 := by
  unfold processEntry
  cases h : tryBody ops full tot st entry with
  | ok st2 => exact tryBody_ok_count ops full tot st entry st2 h
  | error msg => dsimp only; omega

lemma foldl_processEntry_count (ops : IndexOps) (full : Bool) (tot : Nat) :
    ∀ (es : List Entry) (st : IndexState),
      (es.foldl (processEntry ops full tot) st).indexed +
        (es.foldl (processEntry ops full tot) st).skipped +
        (es.foldl (processEntry ops full tot) st).errors =
      st.indexed + st.skipped + st.errors + es.length := by
  intro es
  induction es with
  | nil => intro st; simp
  | cons e es ih =>
    intro st
    rw [List.foldl_cons, ih, processEntry_count]
    simp
    omega

/-- C10: every candidate entry is counted in exactly one of the three
tallies, so the returned counters satisfy
`indexed + skipped + errors = totalEntries`, with `totalEntries` the length
of the discovered candidate list. -/
theorem indexSessions_C10 (ops : IndexOps) (full : Bool) (indexData : List Entry)
    (jsonlFiles : List JsonlFileRef) (hist : List HistoryRecord)
    (store0 : List SessionRow) :
    ((indexSessions ops full indexData jsonlFiles hist store0).1).indexed +
      ((indexSessions ops full indexData jsonlFiles hist store0).1).skipped +
      ((indexSessions ops full indexData jsonlFiles hist store0).1).errors =
      ((indexSessions ops full indexData jsonlFiles hist store0).1).totalEntries ∧
    ((indexSessions ops full indexData jsonlFiles hist store0).1).totalEntries =
      (scanAllSessions ops.isoOf indexData jsonlFiles hist).length := by
  constructor
  · unfold indexSessions
    dsimp only
    rw [foldl_processEntry_count]
    simp
  · rfl

/-- C4: in incremental mode, an entry whose stored fingerprint equals the
freshly computed one is skipped: the step equals exactly the skip update
(skip event, skipped counter), the store — hence the stored row, its
document and embedding — is untouched, the indexed counter does not move,
and the result does not depend on the embedding/extraction collaborators at
all (no re-embedding, no upsert). -/
theorem indexSessions_C4 (ops : IndexOps) (tot : Nat) (st : IndexState) (entry : Entry)
    (h : getSessionMtime st.store entry.sessionId = some (fingerprintOf ops entry)) :
    processEntry ops false tot st entry =
      { st with skipped := st.skipped + 1,
                events := st.events ++
                  [{ type := "skip", sessionId := some entry.sessionId,
                     summary := entry.summary }] } ∧
    (processEntry ops false tot st entry).store = st.store ∧
    (processEntry ops false tot st entry).indexed = st.indexed ∧
    (∀ ops2 : IndexOps, ops2.statMtime = ops.statMtime →
      ops2.historyMtime = ops.historyMtime →
      processEntry ops2 false tot st entry = processEntry ops false tot st entry) := by
  have key : processEntry ops false tot st entry =
      skipState st entry.sessionId entry.summary := by
    unfold processEntry tryBody
    rw [if_pos ⟨rfl, h⟩]
  refine ⟨key, by rw [key]; rfl, by rw [key]; rfl, ?_⟩
  intro ops2 hs hh
  have h2 : getSessionMtime st.store entry.sessionId =
      some (fingerprintOf ops2 entry) := by
    rw [fingerprintOf_congr ops2 ops entry hs hh]
    exact h
  have key2 : processEntry ops2 false tot st entry =
      skipState st entry.sessionId entry.summary := by
    unfold processEntry tryBody
    rw [if_pos ⟨rfl, h2⟩]
  rw [key, key2]

lemma processEntry_error (ops : IndexOps) (full : Bool) (tot : Nat) (st : IndexState)
    (entry : Entry) (msg : String) (h : tryBody ops full tot st entry = .error msg) :
    processEntry ops full tot st entry =
      { st with errors := st.errors + 1,
                events := st.events ++
                  [{ type := "error",
                     message := some ("Failed to index " ++ entry.sessionId ++ ": " ++ msg) }] } := by
  unfold processEntry
  rw [h]

/-- C5: an exception inside one entry's processing is absorbed by the loop —
the state advances by exactly one error count plus an `error` event, the
fold then continues with the remaining entries — and `indexSessions` always
returns the aggregate tally over the discovered entries (it is a total
function of its collaborators; no exception propagates). -/
theorem indexSessions_C5 :
    (∀ (ops : IndexOps) (full : Bool) (tot : Nat) (st : IndexState) (entry : Entry)
        (msg : String),
      tryBody ops full tot st entry = .error msg →
      processEntry ops full tot st entry =
        { st with errors := st.errors + 1,
                  events := st.events ++
                    [{ type := "error",
                       message := some ("Failed to index " ++ entry.sessionId ++ ": " ++ msg) }] }) ∧
    (∀ (ops : IndexOps) (full : Bool) (tot : Nat) (st : IndexState) (entry : Entry)
        (msg : String) (rest : List Entry),
      tryBody ops full tot st entry = .error msg →
      (entry :: rest).foldl (processEntry ops full tot) st =
        rest.foldl (processEntry ops full tot)
          { st with errors := st.errors + 1,
                    events := st.events ++
                      [{ type := "error",
                         message := some ("Failed to index " ++ entry.sessionId ++ ": " ++ msg) }] }) ∧
    (∀ (ops : IndexOps) (full : Bool) (indexData : List Entry)
        (jsonlFiles : List JsonlFileRef) (hist : List HistoryRecord)
        (store0 : List SessionRow),
      ∃ fin : IndexState,
        indexSessions ops full indexData jsonlFiles hist store0 =
          ({ totalEntries := (scanAllSessions ops.isoOf indexData jsonlFiles hist).length,
             indexed := fin.indexed, skipped := fin.skipped, errors := fin.errors }, fin)) := by
  refine ⟨processEntry_error, ?_, ?_⟩
  · intro ops full tot st entry msg rest h
    rw [List.foldl_cons, processEntry_error ops full tot st entry msg h]
  · intro ops full indexData jsonlFiles hist store0
    exact ⟨_, rfl⟩

/-- Collaborator fixture whose operations all succeed trivially and whose
prompt-log mtime is `7`. -/
def opsFixture : IndexOps :=
  { embed := fun _ => .ok [], extractMeta := fun _ => .ok none,
    extractMsgs := fun _ => .ok [], statMtime := fun _ => none,
    historyMtime := some 7, now := "", isoOf := fun _ => "" }

/-- Collaborator fixture whose embedding capability throws. -/
def opsFailEmbed : IndexOps :=
  { embed := fun _ => .error "boom", extractMeta := fun _ => .ok none,
    extractMsgs := fun _ => .ok [], statMtime := fun _ => none,
    historyMtime := none, now := "", isoOf := fun _ => "" }

/-- A concrete history-provenance candidate entry. -/
def entryHist : Entry := { sessionId := "s", source := "history", prompts := some ["p"] }

/-- An index state holding one already-indexed row for `s` with
fingerprint `7`. -/
def stFixture : IndexState := { store := [{ session_id := "s", file_mtime := 7 }] }

/-- Witness for C4 at concrete inputs: the fingerprints match and the skip
leaves store and indexed counter unchanged. -/
theorem indexSessions_C4_witness :
    getSessionMtime stFixture.store entryHist.sessionId =
      some (fingerprintOf opsFixture entryHist) ∧
    (processEntry opsFixture false 1 stFixture entryHist).store = stFixture.store ∧
    (processEntry opsFixture false 1 stFixture entryHist).indexed = stFixture.indexed :=
  ⟨rfl, (indexSessions_C4 opsFixture 1 stFixture entryHist rfl).2.1,
   (indexSessions_C4 opsFixture 1 stFixture entryHist rfl).2.2.1⟩

/-- Witness for C5 at concrete inputs: a throwing embedder turns into one
counted error event. -/
theorem indexSessions_C5_witness :
    tryBody opsFailEmbed false 1 { store := [] } entryHist = .error "boom" ∧
    processEntry opsFailEmbed false 1 { store := [] } entryHist =
      { store := [], errors := 1,
        events := [{ type := "error",
                     message := some "Failed to index s: boom" }] } := by
  refine ⟨rfl, ?_⟩
  have h := indexSessions_C5.1 opsFailEmbed false 1 { store := [] } entryHist "boom" rfl
  exact h

lemma getD_replicate_zero (n i : ℕ) : (List.replicate n (0 : ℝ)).getD i 0 = 0 := by
  induction n generalizing i with
  | zero => simp
  | succ m ih =>
    cases i with
    | zero => simp
    | succ j => simp

lemma normAOf_self_nonneg (v : List ℝ) : 0 ≤ normAOf v v :=
  Finset.sum_nonneg (fun _ _ => mul_self_nonneg _)

lemma normBOf_self_eq (v : List ℝ) : normBOf v v = normAOf v v := rfl

lemma dotMin_self_eq (v : List ℝ) : dotMin v v = normAOf v v := rfl

lemma cosineSimilarity_zero_denom (a b : List ℝ)
    (h : Real.sqrt (normAOf a b) * Real.sqrt (normBOf a b) = 0) :
    cosineSimilarity a b = 0 := by
  unfold cosineSimilarity
  rw [if_pos h]

/-- C6: `cosineSimilarity v v = 1` for every vector with a non-zero entry,
and `cosineSimilarity v zeroVector = 0` for every `v` (the zero-denominator
guard makes the function total, returning `0` instead of dividing by a
zero magnitude). -/
theorem cosineSimilarity_C6 :
    (∀ v : List ℝ, (∃ x ∈ v, x ≠ 0) → cosineSimilarity v v = 1) ∧
    (∀ (v : List ℝ) (n : ℕ), cosineSimilarity v (List.replicate n 0) = 0) := by
  constructor
  · intro v hv
    have hnonneg : 0 ≤ normAOf v v := normAOf_self_nonneg v
    have hpos : 0 < normAOf v v := by
      obtain ⟨x, hxv, hx0⟩ := hv
      obtain ⟨j, hj, hx⟩ := List.mem_iff_getElem.mp hxv
      unfold normAOf
      apply Finset.sum_pos'
      · intro i _
        exact mul_self_nonneg _
      · refine ⟨j, Finset.mem_range.mpr (by simp [hj]), ?_⟩
        have hget : v.getD j 0 = x := by
          rw [List.getD_eq_getElem v 0 hj, hx]
        rw [hget]
        exact mul_self_pos.mpr hx0
    have hdenom : Real.sqrt (normAOf v v) * Real.sqrt (normBOf v v) = normAOf v v := by
      rw [normBOf_self_eq]
      exact Real.mul_self_sqrt hnonneg
    unfold cosineSimilarity
    rw [hdenom, if_neg hpos.ne', dotMin_self_eq]
    exact div_self hpos.ne'
  · intro v n
    have hb : normBOf v (List.replicate n 0) = 0 := by
      unfold normBOf
      apply Finset.sum_eq_zero
      intro _ _
      rw [getD_replicate_zero]
      ring
    apply cosineSimilarity_zero_denom
    rw [hb, Real.sqrt_zero, mul_zero]

/-- Witness for C6 at the concrete vector `[1, 0]`: it has a non-zero entry
and its self-similarity is exactly `1`. -/
theorem cosineSimilarity_C6_witness :
    (∃ x ∈ [(1 : ℝ), 0], x ≠ 0) ∧ cosineSimilarity [(1 : ℝ), 0] [(1 : ℝ), 0] = 1 :=
  ⟨⟨1, by simp, one_ne_zero⟩, cosineSimilarity_C6.1 [(1 : ℝ), 0] ⟨1, by simp, one_ne_zero⟩⟩

/-- C1: `searchSessions` scores exactly the stored sessions with a non-null
embedding using `cosineSimilarity` (which returns `0` on a zero-magnitude
vector), returns that scored list sorted descending by score and truncated
to `limit` (`5` by default), leaves the sessions table untouched, and
overwrites the last-search-results handle with exactly the ordered ids of
the returned sessions. -/
theorem searchSessions_C1 (embedFn : String → List ℝ) (st : SearchState)
    (query : String) (limit : Nat) :
    ∃ sorted : List ScoredSession,
      sorted.Perm ((st.sessions.filter (fun s => s.embedding.isSome)).map
        (fun s => ScoredSession.mk s
          (cosineSimilarity (embedFn query) (s.embedding.getD [])))) ∧
      sorted.Pairwise (fun a b => b.score ≤ a.score) ∧
      (searchSessions embedFn st query limit).1 = sorted.take limit ∧
      (searchSessions embedFn st query limit).2.sessions = st.sessions ∧
      (searchSessions embedFn st query limit).2.lastSearchResults =
        some ((searchSessions embedFn st query limit).1.map
          (fun r => r.session.session_id)) ∧
      searchSessionsDefault embedFn st query = searchSessions embedFn st query 5 ∧
      (∀ a b : List ℝ,
        Real.sqrt (normAOf a b) * Real.sqrt (normBOf a b) = 0 →
        cosineSimilarity a b = 0) := by
  have h3 : (searchSessions embedFn st query limit).1 =
      (((st.sessions.filter (fun s => s.embedding.isSome)).map
        (fun s => ScoredSession.mk s
          (cosineSimilarity (embedFn query) (s.embedding.getD [])))).mergeSort
        (fun a b => decide (b.score ≤ a.score))).take limit := rfl
  have hperm : (((st.sessions.filter (fun s => s.embedding.isSome)).map
      (fun s => ScoredSession.mk s
        (cosineSimilarity (embedFn query) (s.embedding.getD [])))).mergeSort
      (fun a b => decide (b.score ≤ a.score))).Perm
      ((st.sessions.filter (fun s => s.embedding.isSome)).map
        (fun s => ScoredSession.mk s
          (cosineSimilarity (embedFn query) (s.embedding.getD [])))) :=
    List.mergeSort_perm _ _
  have hsorted : (((st.sessions.filter (fun s => s.embedding.isSome)).map
      (fun s => ScoredSession.mk s
        (cosineSimilarity (embedFn query) (s.embedding.getD [])))).mergeSort
      (fun a b => decide (b.score ≤ a.score))).Pairwise
      (fun a b : ScoredSession => b.score ≤ a.score) := by
    have hp := @List.sorted_mergeSort ScoredSession
      (fun a b : ScoredSession => decide (b.score ≤ a.score))
      (fun a b c hab hbc => by
        simp only [decide_eq_true_eq] at hab hbc ⊢
        exact le_trans hbc hab)
      (fun a b => by
        simp only [Bool.or_eq_true, decide_eq_true_eq]
        exact le_total b.score a.score)
      ((st.sessions.filter (fun s => s.embedding.isSome)).map
        (fun s => ScoredSession.mk s
          (cosineSimilarity (embedFn query) (s.embedding.getD []))))
    exact hp.imp (fun h => by simpa using h)
  exact ⟨_, hperm, hsorted, h3, rfl, rfl, rfl, cosineSimilarity_zero_denom⟩

/-- Witness for C1: the zero-magnitude conjunct applied at the empty
vectors, whose norms are empty sums. -/
theorem searchSessions_C1_witness : cosineSimilarity [] [] = 0 := by
  obtain ⟨-, -, -, -, -, -, -, hzero⟩ :=
    searchSessions_C1 (fun _ => []) ⟨[], none⟩ "" 0
  exact hzero [] [] (by simp [normAOf, normBOf])
